import Mathlib

/-!
Shallow embedding of the distributed-task-queue repository
(Go sources: internal/database/database.go, internal/worker/worker.go,
internal/ratelimit, internal/api, internal/models/models.go).

Time is modelled as `Nat` (seconds); machine `int` as `Int`; SQL `NULL`
text columns as the empty string (matching the Go structs, where the
zero string stands for NULL via `nullString`); `leased_until` as
`Option Nat`.  The job table is a `List Job` in insertion (rowid) order.
Each SQL statement (and the `LeaseJob` transaction, which SQLite
serializes) is one atomic step on that list.
-/

namespace TaskQueue

/-- Job status constants from models.go. -/
inductive Status where
  | pending
  | running
  | done
  | failed
deriving DecidableEq

/-- models.Job (models.go lines 6-19). -/
structure Job where
  id : String
  tenant_id : String
  payload : String
  status : Status
  idempotency_key : String
  retry_count : Int
  max_retries : Int
  created_at : Nat
  updated_at : Nat
  leased_until : Option Nat
  error_message : String
  trace_id : String
deriving DecidableEq

/-- The SQL eligibility predicate of LeaseJob (database.go lines 194-196):
status = pending OR (status = running AND leased_until < now)
OR (status = failed AND retry_count < max_retries).
A NULL `leased_until` never satisfies `leased_until < now`. -/
def eligibleJob (now : Nat) (j : Job) : Bool :=
  decide (j.status = Status.pending) ||
  (decide (j.status = Status.running) &&
    (match j.leased_until with
     | some lu => decide (lu < now)
     | none => false)) ||
  (decide (j.status = Status.failed) && decide (j.retry_count < j.max_retries))

/-- ORDER BY created_at ASC LIMIT 1: the first row of minimal created_at. -/
def pickFifo : List Job → Option Job
  | [] => none
  | j :: rest =>
    match pickFifo rest with
    | none => some j
    | some k => if j.created_at ≤ k.created_at then some j else some k

/-- The UPDATE of LeaseJob (database.go lines 207-211): flip the row to
running with the fresh lease and refreshed updated_at. -/
def applyLease (now lu : Nat) (x : Job) : Job :=
  { x with status := Status.running, leased_until := some lu, updated_at := now }

/-- The Job value LeaseJob returns (database.go lines 222-231): built from
the selected columns only; created_at, updated_at, idempotency_key and
error_message are left at their zero values. -/
def leasedView (lu : Nat) (j : Job) : Job :=
  { id := j.id, tenant_id := j.tenant_id, payload := j.payload,
    status := Status.running, idempotency_key := "",
    retry_count := j.retry_count, max_retries := j.max_retries,
    created_at := 0, updated_at := 0, leased_until := some lu,
    error_message := "", trace_id := j.trace_id }

/-- LeaseJob (database.go lines 179-232): inside one transaction, select the
oldest eligible row, flip it to running with the given lease, and return it;
`none` models the sql.ErrNoRows outcome ("no job available"), on which the
store is untouched. -/
def leaseJob (s : List Job) (now lu : Nat) : Option Job × List Job :=
  match pickFifo (s.filter (fun j => eligibleJob now j)) with
  | none => (none, s)
  | some j =>
    (some (leasedView lu j),
     s.map (fun x => if x.id = j.id then applyLease now lu x else x))

/-- UpdateJobStatus (database.go lines 159-166): set status, updated_at,
leased_until = NULL and error_message on the row with the given id.
It does NOT touch retry_count. -/
def updateJobStatus (s : List Job) (jobID : String) (st : Status)
    (errorMsg : String) (now : Nat) : List Job :=
  s.map (fun x =>
    if x.id = jobID then
      { x with status := st, updated_at := now, leased_until := none,
               error_message := errorMsg }
    else x)

/-- UpdateJobForRetry (database.go lines 169-176): set status = failed,
retry_count, updated_at, leased_until = NULL and error_message. -/
def updateJobForRetry (s : List Job) (jobID : String) (rc : Int)
    (errorMsg : String) (now : Nat) : List Job :=
  s.map (fun x =>
    if x.id = jobID then
      { x with status := Status.failed, retry_count := rc, updated_at := now,
               leased_until := none, error_message := errorMsg }
    else x)

/-- worker.processNextJob (worker.go lines 51-100) with the execution
outcome passed in: lease with leaseUntil = now + 30, then on success mark
done, on failure increment the in-memory retry count and either write the
DLQ transition via updateJobStatus (which leaves retry_count as it was in
the store) or write the retry via updateJobForRetry.  `fin` is the time of
the finishing write. -/
def processNextJob (s : List Job) (now fin : Nat) (success : Bool) :
    List Job :=
  match leaseJob s now (now + 30) with
  | (none, s1) => s1
  | (some job, s1) =>
    if success then
      updateJobStatus s1 job.id Status.done "" fin
    else
      let rc := job.retry_count + 1
      if job.max_retries ≤ rc then
        updateJobStatus s1 job.id Status.failed
          "Max retries exceeded - moved to DLQ" fin
      else
        updateJobForRetry s1 job.id rc "Job failed - will retry" fin

/-- ratelimit.RateLimiter (internal/ratelimit): per-tenant token map and
last-reset map (Go maps: a missing tokens entry reads as 0, a missing
last-reset entry is `none`). -/
structure RateLimiter where
  tenantTokens : String → Int
  tenantLastReset : String → Option Nat
  maxJobsPerMin : Int

/-- ratelimit.New. -/
def RateLimiter.new (n : Int) : RateLimiter :=
  { tenantTokens := fun _ => 0, tenantLastReset := fun _ => none,
    maxJobsPerMin := n }

/-- RateLimiter.Allow: lazily reset the tenant's tokens when no window
exists yet or strictly more than a minute has passed since the last reset,
then consume a token if one is available. -/
def allow (rl : RateLimiter) (tenantID : String) (now : Nat) :
    Bool × RateLimiter :=
  let needReset :=
    match rl.tenantLastReset tenantID with
    | none => true
    | some lastReset => decide (60 < now - lastReset)
  let rl1 :=
    if needReset then
      { rl with
        tenantTokens := fun t =>
          if t = tenantID then rl.maxJobsPerMin else rl.tenantTokens t,
        tenantLastReset := fun t =>
          if t = tenantID then some now else rl.tenantLastReset t }
    else rl
  if 0 < rl1.tenantTokens tenantID then
    (true,
     { rl1 with
       tenantTokens := fun t =>
         if t = tenantID then rl1.tenantTokens tenantID - 1
         else rl1.tenantTokens t })
  else (false, rl1)

/-- A sequence of Allow calls for one tenant at the given times, returning
the outcomes in order. -/
def runCalls (rl : RateLimiter) (tenantID : String) :
    List Nat → List Bool × RateLimiter
  | [] => ([], rl)
  | t :: ts =>
    let r := allow rl tenantID t
    let rest := runCalls r.2 tenantID ts
    (r.1 :: rest.1, rest.2)

/-- models.JobSubmitRequest. -/
structure JobSubmitRequest where
  tenant_id : String
  payload : String
  idempotency_key : String
  max_retries : Int
deriving DecidableEq

/-- The outcome of the SubmitJob handler (api, HTTP shell abstracted). -/
inductive SubmitOutcome where
  | badRequest
  | rateLimited
  | quotaExceeded
  | existing (j : Job)
  | created (j : Job)
deriving DecidableEq

/-- GetRunningJobsCount (database.go lines 149-156): count of the tenant's
rows with status = running. -/
def runningCount (s : List Job) (tenantID : String) : Nat :=
  (s.filter (fun j =>
    decide (j.tenant_id = tenantID) && decide (j.status = Status.running))).length

/-- GetJobByIdempotencyKey (database.go lines 95-102): first row whose
idempotency_key equals the (non-NULL) key, in rowid order. -/
def findByKey (s : List Job) (key : String) : Option Job :=
  s.find? (fun j => j.idempotency_key = key)

/-- fmt.Sprintf of the job id from the submission timestamp. -/
def mkJobId (now : Nat) : String := "job-" ++ toString now

/-- fmt.Sprintf of the trace id from the submission timestamp. -/
def mkTraceId (now : Nat) : String := "trace-" ++ toString now

/-- The fresh Job assembled by the SubmitJob handler: status pending,
retry_count 0, max_retries defaulted to 3 exactly when the requested
value is 0. -/
def newJob (req : JobSubmitRequest) (now : Nat) : Job :=
  { id := mkJobId now, tenant_id := req.tenant_id, payload := req.payload,
    status := Status.pending, idempotency_key := req.idempotency_key,
    retry_count := 0,
    max_retries := if req.max_retries = 0 then 3 else req.max_retries,
    created_at := now, updated_at := now, leased_until := none,
    error_message := "", trace_id := mkTraceId now }

/-- api.Server.SubmitJob (the second file concatenated into database.go,
lines 327-413): validate, consult the rate gate, consult the concurrency
gate (reject at 5 or more running jobs), then check idempotency, and only
then create and insert the new row. -/
def submitJob (s : List Job) (rl : RateLimiter) (req : JobSubmitRequest)
    (now : Nat) : SubmitOutcome × List Job × RateLimiter :=
  if req.tenant_id = "" ∨ req.payload = "" then (SubmitOutcome.badRequest, s, rl)
  else
    let a := allow rl req.tenant_id now
    if a.1 = false then (SubmitOutcome.rateLimited, s, a.2)
    else if 5 ≤ runningCount s req.tenant_id then
      (SubmitOutcome.quotaExceeded, s, a.2)
    else
      match
        (if req.idempotency_key = "" then none else findByKey s req.idempotency_key)
      with
      | some j => (SubmitOutcome.existing j, s, a.2)
      | none =>
        (SubmitOutcome.created (newJob req now), s ++ [newJob req now], a.2)

/-- GetJobByID as a point query (database.go lines 62-92). -/
def getJobByID (s : List Job) (id : String) : Option Job :=
  s.find? (fun j => j.id = id)

/-- The possible outcomes of the durable-store point query: a row, the
sql.ErrNoRows sentinel, or any other store failure. -/
inductive QueryResult where
  | found (j : Job)
  | noRows
  | storeFailure
deriving DecidableEq

/-- GetJobByID with the store's failure mode exposed: when the durable
store fails the query errs with a non-ErrNoRows error. -/
def getJobByIDR (storeFails : Bool) (s : List Job) (id : String) :
    QueryResult :=
  if storeFails then QueryResult.storeFailure
  else
    match getJobByID s id with
    | some j => QueryResult.found j
    | none => QueryResult.noRows

/-- HTTP statuses the handlers emit. -/
inductive HttpStatus where
  | ok
  | badRequest
  | notFound
  | internalError
deriving DecidableEq

/-- api.Server.GetJobStatus (lines 416-431 of the concatenated file): a
missing id is a bad request; ANY error from GetJobByID — the ErrNoRows
sentinel or a store failure alike — is answered with 404 Job not found. -/
def getJobStatusHandler (storeFails : Bool) (s : List Job) (id : String) :
    HttpStatus :=
  if id = "" then HttpStatus.badRequest
  else
    match getJobByIDR storeFails s id with
    | QueryResult.found _ => HttpStatus.ok
    | _ => HttpStatus.notFound

/-- models.Metrics. -/
structure Metrics where
  total_jobs : Nat
  pending_jobs : Nat
  running_jobs : Nat
  completed_jobs : Nat
  failed_jobs : Nat
  dlq_jobs : Nat
  total_retries : Int
deriving DecidableEq

/-- GetMetrics (database.go lines 235-247): seven aggregate counts;
failed_jobs requires retry_count < max_retries and dlq_jobs
retry_count >= max_retries. -/
def getMetrics (s : List Job) : Metrics :=
  { total_jobs := s.length,
    pending_jobs := (s.filter (fun j => decide (j.status = Status.pending))).length,
    running_jobs := (s.filter (fun j => decide (j.status = Status.running))).length,
    completed_jobs := (s.filter (fun j => decide (j.status = Status.done))).length,
    failed_jobs := (s.filter (fun j =>
      decide (j.status = Status.failed) && decide (j.retry_count < j.max_retries))).length,
    dlq_jobs := (s.filter (fun j =>
      decide (j.status = Status.failed) && decide (j.max_retries ≤ j.retry_count))).length,
    total_retries := (s.map (fun j => j.retry_count)).sum }

/-- The data-model invariant: retry_count never exceeds max_retries. -/
def StoreInv (s : List Job) : Prop :=
  ∀ j ∈ s, j.retry_count ≤ j.max_retries

/-- The fields a re-claim must not touch (all but status, leased_until and
updated_at, and the id it keys on). -/
def frameFields (j : Job) : Int × String × String × Nat × Int × String :=
  (j.retry_count, j.payload, j.tenant_id, j.created_at, j.max_retries,
   j.idempotency_key)

/-! Concrete fixtures used by witnesses and counterexamples. -/

/-- A failed job on its last allowed retry: two failures recorded, one
retry left before the budget of three is exhausted. -/
def jAt2 : Job :=
  { id := "a", tenant_id := "t", payload := "p", status := Status.failed,
    idempotency_key := "", retry_count := 2, max_retries := 3,
    created_at := 0, updated_at := 0, leased_until := none,
    error_message := "e", trace_id := "tr" }

/-- The row processNextJob leaves behind after jAt2 is claimed at time 100
and its execution fails (the write of worker.go line 82): status failed,
but retry_count still 2. -/
def jAfterDLQ : Job :=
  { id := "a", tenant_id := "t", payload := "p", status := Status.failed,
    idempotency_key := "", retry_count := 2, max_retries := 3,
    created_at := 0, updated_at := 101, leased_until := none,
    error_message := "Max retries exceeded - moved to DLQ",
    trace_id := "tr" }

/-- A pending job already stored under idempotency key "k". -/
def jobK : Job :=
  { id := "job-1", tenant_id := "t", payload := "p",
    status := Status.pending, idempotency_key := "k", retry_count := 0,
    max_retries := 3, created_at := 1, updated_at := 1,
    leased_until := none, error_message := "", trace_id := "trace-1" }

/-- A rate-limiter state in which tenant "t" has exhausted its window
(zero tokens, window started at time 50). -/
def rlK : RateLimiter :=
  { tenantTokens := fun _ => 0,
    tenantLastReset := fun t => if t = "t" then some 50 else none,
    maxJobsPerMin := 10 }

/-- A resubmission of the work already stored as jobK. -/
def reqDup : JobSubmitRequest :=
  { tenant_id := "t", payload := "p", idempotency_key := "k",
    max_retries := 0 }

/-- A submission requesting a negative retry budget. -/
def reqNeg : JobSubmitRequest :=
  { tenant_id := "t", payload := "p", idempotency_key := "",
    max_retries := -1 }

/-- The job submitJob creates from reqNeg at time 7. -/
def jNeg : Job :=
  { id := "job-7", tenant_id := "t", payload := "p",
    status := Status.pending, idempotency_key := "", retry_count := 0,
    max_retries := -1, created_at := 7, updated_at := 7,
    leased_until := none, error_message := "", trace_id := "trace-7" }

/-- A well-formed submission (max_retries absent, so defaulted to 3). -/
def reqDef : JobSubmitRequest :=
  { tenant_id := "t", payload := "p", idempotency_key := "",
    max_retries := 0 }

/-- The job submitJob creates from reqDef at time 7. -/
def jDef : Job :=
  { id := "job-7", tenant_id := "t", payload := "p",
    status := Status.pending, idempotency_key := "", retry_count := 0,
    max_retries := 3, created_at := 7, updated_at := 7,
    leased_until := none, error_message := "", trace_id := "trace-7" }

/-- A single eligible pending job. -/
def jW : Job :=
  { id := "w", tenant_id := "t", payload := "p", status := Status.pending,
    idempotency_key := "", retry_count := 0, max_retries := 3,
    created_at := 5, updated_at := 0, leased_until := none,
    error_message := "", trace_id := "tw" }

/-- A running job whose lease expired at time 10. -/
def jExp : Job :=
  { id := "b", tenant_id := "t", payload := "p", status := Status.running,
    idempotency_key := "", retry_count := 1, max_retries := 3,
    created_at := 2, updated_at := 3, leased_until := some 10,
    error_message := "", trace_id := "tb" }

/-- A rate-limiter state for tenant "a" whose window started at time 10
with no tokens left. -/
def rlW : RateLimiter :=
  { tenantTokens := fun _ => 0,
    tenantLastReset := fun t => if t = "a" then some 10 else none,
    maxJobsPerMin := 10 }

/-! Helper lemmas. -/

theorem pickFifo_eq_none {l : List Job} : pickFifo l = none ↔ l = [] := by
  cases l with
  | nil => simp [pickFifo]
  | cons j rest =>
    simp only [pickFifo]
    constructor
    · intro h
      cases hr : pickFifo rest with
      | none => rw [hr] at h; simp at h
      | some k =>
        rw [hr] at h
        by_cases hc : j.created_at ≤ k.created_at <;> simp [hc] at h
    · intro h; cases h

theorem pickFifo_mem {l : List Job} {j : Job} (h : pickFifo l = some j) :
    j ∈ l := by
  induction l with
  | nil => simp [pickFifo] at h
  | cons a rest ih =>
    simp only [pickFifo] at h
    cases hr : pickFifo rest with
    | none =>
      simp only [hr, Option.some.injEq] at h
      subst h
      exact List.mem_cons_self a rest
    | some k =>
      simp only [hr] at h
      by_cases hc : a.created_at ≤ k.created_at
      · simp only [if_pos hc, Option.some.injEq] at h
        subst h
        exact List.mem_cons_self a rest
      · simp only [if_neg hc, Option.some.injEq] at h
        subst h
        exact List.mem_cons_of_mem a (ih hr)

theorem pickFifo_min {l : List Job} :
    ∀ {j : Job}, pickFifo l = some j →
      ∀ k ∈ l, j.created_at ≤ k.created_at := by
  induction l with
  | nil => intro j h; simp [pickFifo] at h
  | cons a rest ih =>
    intro j h k hk
    simp only [pickFifo] at h
    cases hr : pickFifo rest with
    | none =>
      simp only [hr, Option.some.injEq] at h
      subst h
      have hrest : rest = [] := pickFifo_eq_none.mp hr
      subst hrest
      simp only [List.mem_singleton] at hk
      subst hk
      exact le_refl _
    | some m =>
      simp only [hr] at h
      rcases List.mem_cons.mp hk with hka | hkr
      · rw [hka]
        by_cases hc : a.created_at ≤ m.created_at
        · simp only [if_pos hc, Option.some.injEq] at h
          subst h; exact le_refl _
        · simp only [if_neg hc, Option.some.injEq] at h
          subst h
          exact le_of_lt (Nat.lt_of_not_le hc)
      · by_cases hc : a.created_at ≤ m.created_at
        · simp only [if_pos hc, Option.some.injEq] at h
          subst h
          exact le_trans hc (ih hr k hkr)
        · simp only [if_neg hc, Option.some.injEq] at h
          subst h
          exact ih hr k hkr

theorem leaseJob_eq_none_of (s : List Job) (now lu : Nat)
    (h : ∀ j ∈ s, eligibleJob now j = false) :
    leaseJob s now lu = (none, s) := by
  have hfil : s.filter (fun j => eligibleJob now j) = [] := by
    apply List.filter_eq_nil_iff.mpr
    intro a ha
    simp [h a ha]
  simp [leaseJob, hfil, pickFifo]

theorem leaseJob_ineligible_of_none (s : List Job) (now lu : Nat)
    (h : (leaseJob s now lu).1 = none) :
    ∀ j ∈ s, eligibleJob now j = false := by
  cases hp : pickFifo (s.filter (fun j => eligibleJob now j)) with
  | none =>
    have hfil : s.filter (fun j => eligibleJob now j) = [] :=
      pickFifo_eq_none.mp hp
    intro j hj
    cases he : eligibleJob now j
    · rfl
    · exact absurd (hfil ▸ List.mem_filter.mpr ⟨hj, he⟩) (List.not_mem_nil j)
  | some j =>
    have : (leaseJob s now lu).1 = some (leasedView lu j) := by
      simp only [leaseJob, hp]
    rw [this] at h
    cases h

theorem leaseJob_none_snd (s : List Job) (now lu : Nat)
    (h : (leaseJob s now lu).1 = none) : (leaseJob s now lu).2 = s := by
  have := leaseJob_eq_none_of s now lu (leaseJob_ineligible_of_none s now lu h)
  rw [this]

theorem leaseJob_some (s : List Job) (now lu : Nat) (r : Job)
    (h : (leaseJob s now lu).1 = some r) :
    ∃ j, j ∈ s ∧ eligibleJob now j = true ∧ r = leasedView lu j ∧
      (∀ k ∈ s, eligibleJob now k = true → j.created_at ≤ k.created_at) ∧
      (leaseJob s now lu).2 =
        s.map (fun x => if x.id = j.id then applyLease now lu x else x) := by
  cases hp : pickFifo (s.filter (fun j => eligibleJob now j)) with
  | none =>
    have : (leaseJob s now lu).1 = none := by simp only [leaseJob, hp]
    rw [this] at h
    cases h
  | some j =>
    have hfst : (leaseJob s now lu).1 = some (leasedView lu j) := by
      simp only [leaseJob, hp]
    have hsnd : (leaseJob s now lu).2 =
        s.map (fun x => if x.id = j.id then applyLease now lu x else x) := by
      simp only [leaseJob, hp]
    have hr : r = leasedView lu j := by
      rw [hfst] at h
      exact (Option.some.inj h).symm
    have hmem := List.mem_filter.mp (pickFifo_mem hp)
    refine ⟨j, hmem.1, hmem.2, hr, ?_, hsnd⟩
    intro k hk hek
    exact pickFifo_min hp k (List.mem_filter.mpr ⟨hk, hek⟩)

theorem leaseJob_frame (s : List Job) (now lu : Nat) :
    ((leaseJob s now lu).2).map frameFields = s.map frameFields := by
  cases hres : (leaseJob s now lu).1 with
  | none => rw [leaseJob_none_snd s now lu hres]
  | some r =>
    obtain ⟨j, _, _, _, _, hsnd⟩ := leaseJob_some s now lu r hres
    rw [hsnd, List.map_map]
    have hfun : frameFields ∘ (fun x => if x.id = j.id then applyLease now lu x else x)
        = frameFields := by
      funext x
      by_cases hx : x.id = j.id <;> simp [hx, applyLease, frameFields]
    rw [hfun]

theorem allow_in_window_true (rl : RateLimiter) (t : String) (now w : Nat)
    (hR : rl.tenantLastReset t = some w) (hle : now ≤ w + 60)
    (hpos : 0 < rl.tenantTokens t) :
    (allow rl t now).1 = true ∧
    (allow rl t now).2.tenantTokens t = rl.tenantTokens t - 1 ∧
    (allow rl t now).2.tenantLastReset = rl.tenantLastReset := by
  have hnr : ¬ (60 < now - w) := by omega
  simp [allow, hR, hnr, hpos]

theorem allow_in_window_false (rl : RateLimiter) (t : String) (now w : Nat)
    (hR : rl.tenantLastReset t = some w) (hle : now ≤ w + 60)
    (hnpos : ¬ 0 < rl.tenantTokens t) :
    (allow rl t now).1 = false ∧ (allow rl t now).2 = rl := by
  have hnr : ¬ (60 < now - w) := by omega
  simp [allow, hR, hnr, hnpos]

theorem runCalls_in_window (t : String) (w : Nat) :
    ∀ (ts : List Nat) (rl : RateLimiter),
      rl.tenantLastReset t = some w →
      (∀ u ∈ ts, u ≤ w + 60) →
      (runCalls rl t ts).1 =
        List.replicate (min (rl.tenantTokens t).toNat ts.length) true ++
        List.replicate (ts.length - (rl.tenantTokens t).toNat) false := by
  intro ts
  induction ts with
  | nil => intro rl _ _; simp [runCalls]
  | cons u us ih =>
    intro rl hR hu
    have hu0 : u ≤ w + 60 := hu u (List.mem_cons_self u us)
    have hus : ∀ x ∈ us, x ≤ w + 60 :=
      fun x hx => hu x (List.mem_cons_of_mem u hx)
    by_cases hpos : 0 < rl.tenantTokens t
    · obtain ⟨h1, h2, h3⟩ := allow_in_window_true rl t u w hR hu0 hpos
      simp only [runCalls]
      rw [h1, ih ((allow rl t u).2) (by rw [h3]; exact hR) hus, h2]
      have hpos' : 1 ≤ (rl.tenantTokens t).toNat := by omega
      rw [show (rl.tenantTokens t - 1).toNat
          = (rl.tenantTokens t).toNat - 1 by omega]
      rw [List.length_cons]
      rw [show min (rl.tenantTokens t).toNat (us.length + 1)
          = (min ((rl.tenantTokens t).toNat - 1) us.length) + 1 by omega]
      rw [show us.length + 1 - (rl.tenantTokens t).toNat
          = us.length - ((rl.tenantTokens t).toNat - 1) by omega]
      rw [List.replicate_succ]
      simp [List.cons_append]
    · obtain ⟨h1, h2⟩ := allow_in_window_false rl t u w hR hu0 hpos
      simp only [runCalls]
      rw [h1, h2, ih rl hR hus]
      have h0 : (rl.tenantTokens t).toNat = 0 := by omega
      rw [h0]
      simp [List.replicate_succ]

/-- Jobs mapped one-to-one with retry_count and max_retries untouched keep
the retry invariant. -/
theorem StoreInv_map (s : List Job) (g : Job → Job)
    (hg : ∀ x, (g x).retry_count = x.retry_count ∧
      (g x).max_retries = x.max_retries)
    (h : StoreInv s) : StoreInv (s.map g) := by
  intro y hy
  obtain ⟨x, hx, rfl⟩ := List.mem_map.mp hy
  rw [(hg x).1, (hg x).2]
  exact h x hx

/-! Claim theorems. -/

/-- Claim C1 (code_bug evidence): after a job one failure away from its
retry budget is claimed and its execution fails, the worker's dead-letter
transition leaves the persisted row with its OLD retry_count (2 < 3), so
the row does not satisfy retry_count >= max_retries and LeaseJob claims
the very same job again on a later pass — the DLQ transition does not
persist terminality and the job is not excluded from future claims. -/
theorem dead_letter_transition_not_terminal :
    processNextJob [jAt2] 100 101 false = [jAfterDLQ] ∧
    jAfterDLQ.status = Status.failed ∧
    jAfterDLQ.retry_count = 2 ∧ jAfterDLQ.max_retries = 3 ∧
    eligibleJob 200 jAfterDLQ = true ∧
    (leaseJob [jAfterDLQ] 200 230).1 = some (leasedView 230 jAfterDLQ) := by
  decide

/-- Claim C2 (code_bug evidence): when the incremented retry count reaches
max_retries, the worker persists the transition through UpdateJobStatus,
which writes neither the incremented retry_count (the row keeps 2, not
max_retries = 3) nor the spec's error message ("Max retries exceeded -
moved to DLQ" instead of "max retries exceeded"). -/
theorem final_failure_drops_retry_increment :
    processNextJob [jAt2] 100 101 false = [jAfterDLQ] ∧
    jAfterDLQ.retry_count = 2 ∧
    jAfterDLQ.retry_count ≠ jAfterDLQ.max_retries ∧
    jAfterDLQ.error_message ≠ "max retries exceeded" := by
  decide

/-- Claim C3: LeaseJob returns none exactly when no job satisfies the
eligibility predicate, leaving the store unchanged; otherwise it returns a
view of an eligible job with minimal created_at among the eligible ones,
flipped to running with leased_until = now + leaseDuration, and the store
is updated by exactly that flip. -/
theorem leaseJob_spec (s : List Job) (now dur : Nat) :
    ((∀ j ∈ s, eligibleJob now j = false) →
      leaseJob s now (now + dur) = (none, s)) ∧
    (∀ j ∈ s, eligibleJob now j = true →
      (leaseJob s now (now + dur)).1 ≠ none) ∧
    (∀ r, (leaseJob s now (now + dur)).1 = some r →
      ∃ j, j ∈ s ∧ eligibleJob now j = true ∧
        r = leasedView (now + dur) j ∧
        r.status = Status.running ∧ r.leased_until = some (now + dur) ∧
        (∀ k ∈ s, eligibleJob now k = true →
          j.created_at ≤ k.created_at) ∧
        (leaseJob s now (now + dur)).2 =
          s.map (fun x =>
            if x.id = j.id then applyLease now (now + dur) x else x)) := by
  refine ⟨fun h => leaseJob_eq_none_of s now (now + dur) h, ?_, ?_⟩
  · intro j hj he hnone
    have := leaseJob_ineligible_of_none s now (now + dur) hnone j hj
    rw [he] at this
    cases this
  · intro r hr
    obtain ⟨j, hjs, helig, hrv, hmin, hsnd⟩ :=
      leaseJob_some s now (now + dur) r hr
    exact ⟨j, hjs, helig, hrv, by rw [hrv]; rfl, by rw [hrv]; rfl, hmin, hsnd⟩

/-- Witness for C3 at a concrete store with one eligible pending job. -/
theorem leaseJob_spec_witness : (leaseJob [jW] 10 (10 + 30)).1 ≠ none :=
  (leaseJob_spec [jW] 10 30).2.1 jW (List.mem_singleton.mpr rfl) (by decide)

/-- Claim C5: when the single eligible job is contended, the claim step is
atomic — one claim attempt succeeds, flipping the job to running, and a
second attempt on the resulting store observes no eligible row. -/
theorem lease_at_most_one (s : List Job) (now dur : Nat) (j : Job)
    (hj : j ∈ s) (he : eligibleJob now j = true)
    (honly : ∀ k ∈ s, eligibleJob now k = true → k.id = j.id) :
    ∃ r, (leaseJob s now (now + dur)).1 = some r ∧ r.id = j.id ∧
      r.status = Status.running ∧
      (leaseJob (leaseJob s now (now + dur)).2 now (now + dur)).1 = none := by
  have hne : (leaseJob s now (now + dur)).1 ≠ none := by
    intro hnone
    have := leaseJob_ineligible_of_none s now (now + dur) hnone j hj
    rw [he] at this
    cases this
  obtain ⟨r, hr⟩ := Option.ne_none_iff_exists'.mp hne
  obtain ⟨j', hj's, helig', hrv, _, hsnd⟩ :=
    leaseJob_some s now (now + dur) r hr
  have hid : j'.id = j.id := honly j' hj's helig'
  refine ⟨r, hr, by rw [hrv]; exact hid, by rw [hrv]; rfl, ?_⟩
  have hall : ∀ k ∈ (leaseJob s now (now + dur)).2,
      eligibleJob now k = false := by
    intro k hk
    rw [hsnd] at hk
    obtain ⟨x, hx, hxk⟩ := List.mem_map.mp hk
    by_cases hcase : x.id = j'.id
    · rw [if_pos hcase] at hxk
      rw [← hxk]
      simp only [eligibleJob, applyLease]
      have : ¬ (now + dur < now) := by omega
      simp [this]
    · rw [if_neg hcase] at hxk
      rw [← hxk]
      cases helx : eligibleJob now x
      · rfl
      · exact absurd (hid ▸ honly x hx helx) hcase
  rw [(leaseJob_eq_none_of _ now (now + dur) hall)]

/-- Witness for C5 at a store holding one eligible job. -/
theorem lease_at_most_one_witness :
    ∃ r, (leaseJob [jW] 10 (10 + 30)).1 = some r ∧ r.id = jW.id ∧
      r.status = Status.running ∧
      (leaseJob (leaseJob [jW] 10 (10 + 30)).2 10 (10 + 30)).1 = none :=
  lease_at_most_one [jW] 10 30 jW (List.mem_singleton.mpr rfl) (by decide)
    (by decide)

/-- Claim C8: a running job whose lease expired before `now` satisfies the
eligibility predicate again, and any claim step changes nothing but
status, leased_until and updated_at — retry_count, payload, tenant_id,
created_at, max_retries and idempotency_key of every row survive
untouched. -/
theorem lease_expiry_reclaim (s : List Job) (now dur lu0 : Nat) (j : Job)
    (_hj : j ∈ s) (hs : j.status = Status.running)
    (hl : j.leased_until = some lu0) (hlt : lu0 < now) :
    eligibleJob now j = true ∧
    ((leaseJob s now (now + dur)).2).map frameFields =
      s.map frameFields := by
  constructor
  · simp [eligibleJob, hs, hl, hlt]
  · exact leaseJob_frame s now (now + dur)

/-- Witness for C8 at a store holding one expired running job. -/
theorem lease_expiry_reclaim_witness :
    eligibleJob 100 jExp = true ∧
    ((leaseJob [jExp] 100 (100 + 30)).2).map frameFields =
      [jExp].map frameFields :=
  lease_expiry_reclaim [jExp] 100 30 10 jExp (List.mem_singleton.mpr rfl)
    rfl rfl (by decide)

/-- Claim C9 (refuted): with a job present but the durable store failing,
the status-lookup handler answers 404 not-found — the same status as for
an unknown id — and not an internal error; the two causes are collapsed. -/
theorem store_failure_lookup_masked :
    getJobByID [jobK] "job-1" = some jobK ∧
    getJobStatusHandler true [jobK] "job-1" = HttpStatus.notFound ∧
    getJobStatusHandler true [jobK] "job-1" ≠ HttpStatus.internalError := by
  decide

/-- Claim C9 amended: the handler maps a missing id to bad-request, a
successful row read to ok, and EVERY lookup error — the no-rows sentinel
and a store failure alike — to not-found; it never answers internal
error. -/
theorem lookup_errors_collapsed (f : Bool) (s : List Job) (id : String)
    (hid : id ≠ "") :
    (getJobStatusHandler f s id = HttpStatus.ok ↔
      f = false ∧ (getJobByID s id).isSome) ∧
    (getJobStatusHandler f s id = HttpStatus.notFound ↔
      f = true ∨ getJobByID s id = none) := by
  cases f with
  | false =>
    cases hfind : getJobByID s id with
    | none => simp [getJobStatusHandler, getJobByIDR, hid, hfind]
    | some j => simp [getJobStatusHandler, getJobByIDR, hid, hfind]
  | true => simp [getJobStatusHandler, getJobByIDR, hid]

/-- Witness for the amended C9 at a concrete failing lookup. -/
theorem lookup_errors_collapsed_witness :
    getJobStatusHandler true [jobK] "x" = HttpStatus.notFound :=
  (lookup_errors_collapsed true [jobK] "x" (by decide)).2.mpr (Or.inl rfl)

/-- Claim C4 (refuted): the admission gates run BEFORE the idempotency
check: with tenant "t"'s rate window exhausted, resubmitting the already
stored idempotency key "k" is rejected with rate-limited instead of
returning the existing job — the rate gate is consulted on duplicate
submissions. -/
theorem duplicate_submission_rate_limited :
    findByKey [jobK] "k" = some jobK ∧
    (submitJob [jobK] rlK reqDup 60).1 = SubmitOutcome.rateLimited ∧
    (submitJob [jobK] rlK reqDup 60).1 ≠ SubmitOutcome.existing jobK := by
  decide

/-- Claim C4 amended: a duplicate submission first passes the admission
gates (consuming a rate token); once they pass, submit returns the stored
job for the key unchanged, inserts no row, and the only state change is
the consumed token. -/
theorem idempotent_submission (s : List Job) (rl : RateLimiter)
    (req : JobSubmitRequest) (now : Nat) (j : Job)
    (hv : ¬(req.tenant_id = "" ∨ req.payload = ""))
    (hrate : (allow rl req.tenant_id now).1 = true)
    (hq : runningCount s req.tenant_id < 5)
    (hk : req.idempotency_key ≠ "")
    (hf : findByKey s req.idempotency_key = some j) :
    (submitJob s rl req now).1 = SubmitOutcome.existing j ∧
    (submitJob s rl req now).2.1 = s ∧
    (submitJob s rl req now).2.2 = (allow rl req.tenant_id now).2 := by
  have ha : ¬((allow rl req.tenant_id now).1 = false) := by
    rw [hrate]; exact Bool.true_eq_false ▸ (by simp)
  have hq' : ¬(5 ≤ runningCount s req.tenant_id) := not_le.mpr hq
  simp [submitJob, hv, ha, hq', hk, hf]

/-- Witness for the amended C4: resubmitting key "k" with a fresh limiter
returns the stored job and leaves the store unchanged. -/
theorem idempotent_submission_witness :
    (submitJob [jobK] (RateLimiter.new 10) reqDup 60).1 =
      SubmitOutcome.existing jobK ∧
    (submitJob [jobK] (RateLimiter.new 10) reqDup 60).2.1 = [jobK] := by
  have h := idempotent_submission [jobK] (RateLimiter.new 10) reqDup 60 jobK
    (by decide) (by decide) (by decide) (by decide) (by decide)
  exact ⟨h.1, h.2.1⟩

/-- Claim C10: the seven aggregate counts of GetMetrics partition the job
table — pending + running + completed + failed + dlq = total — and the
failed and dlq counts together are exactly the failed-status rows, so the
reported failed count excludes the dead-lettered rows. -/
theorem metrics_partition (s : List Job) :
    (getMetrics s).pending_jobs + (getMetrics s).running_jobs +
      (getMetrics s).completed_jobs + (getMetrics s).failed_jobs +
      (getMetrics s).dlq_jobs = (getMetrics s).total_jobs ∧
    (getMetrics s).failed_jobs + (getMetrics s).dlq_jobs =
      (s.filter (fun j => decide (j.status = Status.failed))).length := by
  induction s with
  | nil => simp [getMetrics]
  | cons j rest ih =>
    obtain ⟨ih1, ih2⟩ := ih
    simp only [getMetrics] at ih1 ih2 ⊢
    rcases hst : j.status with _ | _ | _ | _ <;>
      by_cases hrc : j.retry_count < j.max_retries <;>
        have hrc' := hrc <;>
          simp only [not_lt] at hrc' <;>
            simp [List.filter_cons, hst, hrc, hrc', List.length_cons] <;>
              omega

/-- Claim C6: with the server's limiter of 10 tokens per 60-second window,
a fresh tenant's first 10 calls inside one window are allowed and the 11th
is rejected; and on the first call strictly after the window has elapsed
the tokens reset to 10 (so the call is allowed, 9 tokens remain) and the
window restarts at that call's time. -/
theorem rate_gate_spec :
    (∀ (t : String) (t0 : Nat) (ts : List Nat), ts.length = 10 →
      (∀ u ∈ ts, u ≤ t0 + 60) →
      (runCalls (RateLimiter.new 10) t (t0 :: ts)).1 =
        List.replicate 10 true ++ [false]) ∧
    (∀ (rl : RateLimiter) (t : String) (w now : Nat),
      rl.maxJobsPerMin = 10 → rl.tenantLastReset t = some w →
      w + 60 < now →
      (allow rl t now).1 = true ∧
      (allow rl t now).2.tenantTokens t = 9 ∧
      (allow rl t now).2.tenantLastReset t = some now) := by
  constructor
  · intro t t0 ts hlen hbound
    have h1 : (allow (RateLimiter.new 10) t t0).1 = true ∧
        (allow (RateLimiter.new 10) t t0).2.tenantTokens t = 9 ∧
        (allow (RateLimiter.new 10) t t0).2.tenantLastReset t = some t0 := by
      simp [allow, RateLimiter.new]
    simp only [runCalls]
    rw [h1.1,
      runCalls_in_window t t0 ts ((allow (RateLimiter.new 10) t t0).2)
        h1.2.2 hbound,
      h1.2.1, hlen]
    decide
  · intro rl t w now hmax hR hlt
    have hgt : 60 < now - w := by omega
    simp [allow, hR, hgt, hmax]

/-- Witness for C6: eleven concrete calls in one window, then a call after
the window on an exhausted limiter. -/
theorem rate_gate_spec_witness :
    (runCalls (RateLimiter.new 10) "a"
        (0 :: [1, 2, 3, 4, 5, 6, 7, 8, 9, 60])).1 =
      List.replicate 10 true ++ [false] ∧
    (allow rlW "a" 100).1 = true :=
  ⟨rate_gate_spec.1 "a" 0 [1, 2, 3, 4, 5, 6, 7, 8, 9, 60] (by decide)
      (by decide),
   (rate_gate_spec.2 rlW "a" 10 100 rfl (by decide) (by decide)).1⟩

/-- Claim C7 (refuted as stated): a submission requesting max_retries = -1
is accepted and stored with retry_count = 0 greater than
max_retries = -1, violating the invariant — the default-to-3 rescue only
fires for a requested value of exactly zero, not for negative values. -/
theorem negative_max_retries_breaks_invariant :
    (submitJob [] (RateLimiter.new 10) reqNeg 7).1 =
      SubmitOutcome.created jNeg ∧
    (submitJob [] (RateLimiter.new 10) reqNeg 7).2.1 = [jNeg] ∧
    ¬ jNeg.retry_count ≤ jNeg.max_retries := by
  decide

/-- Claim C7 amended: a created submission whose requested max_retries is
nonnegative starts with retry_count = 0, satisfies the invariant, and
keeps the store invariant; and a worker pass over a store with unique job
ids preserves retry_count <= max_retries for every job (the retry
transition writes an incremented count only when it is still below the
job's max_retries, and the terminal write leaves retry_count alone). -/
theorem retry_invariant_preserved :
    (∀ (s : List Job) (rl : RateLimiter) (req : JobSubmitRequest)
      (now : Nat) (j : Job),
      0 ≤ req.max_retries →
      (submitJob s rl req now).1 = SubmitOutcome.created j →
      j.retry_count = 0 ∧ j.retry_count ≤ j.max_retries ∧
        (StoreInv s → StoreInv (submitJob s rl req now).2.1)) ∧
    (∀ (s : List Job) (now fin : Nat) (b : Bool),
      (s.map Job.id).Nodup → StoreInv s →
      StoreInv (processNextJob s now fin b)) := by
  constructor
  · intro s rl req now j hmr hcreated
    by_cases hv : req.tenant_id = "" ∨ req.payload = ""
    · simp [submitJob, hv] at hcreated
    · by_cases ha : (allow rl req.tenant_id now).1 = false
      · simp [submitJob, hv, ha] at hcreated
      · by_cases hq : 5 ≤ runningCount s req.tenant_id
        · simp [submitJob, hv, ha, hq] at hcreated
        · cases hk : (if req.idempotency_key = "" then none
              else findByKey s req.idempotency_key) with
          | some j0 => simp [submitJob, hv, ha, hq, hk] at hcreated
          | none =>
            have hstep : submitJob s rl req now =
                (SubmitOutcome.created (newJob req now),
                 s ++ [newJob req now],
                 (allow rl req.tenant_id now).2) := by
              simp [submitJob, hv, ha, hq, hk]
            rw [hstep] at hcreated
            simp only [SubmitOutcome.created.injEq] at hcreated
            subst hcreated
            have hmr2 : (0 : Int) ≤ (newJob req now).max_retries := by
              by_cases h0 : req.max_retries = 0 <;>
                simp [newJob, h0] <;> omega
            refine ⟨rfl, hmr2, ?_⟩
            intro hinv x hx
            rw [hstep] at hx
            rcases List.mem_append.mp hx with hxs | hxn
            · exact hinv x hxs
            · rw [List.mem_singleton.mp hxn]
              exact hmr2
  · intro s now fin b hnodup hinv
    cases hres : leaseJob s now (now + 30) with
    | mk o s1 =>
      cases o with
      | none =>
        have h1 : (leaseJob s now (now + 30)).1 = none := by rw [hres]
        have h2 := leaseJob_none_snd s now (now + 30) h1
        rw [hres] at h2
        have h2' : s1 = s := h2
        simp only [processNextJob, hres]
        rw [h2']
        exact hinv
      | some r =>
        have h1 : (leaseJob s now (now + 30)).1 = some r := by rw [hres]
        obtain ⟨j, hjs, _, hrv, _, hsnd⟩ :=
          leaseJob_some s now (now + 30) r h1
        have hs1 : s1 =
            s.map (fun x =>
              if x.id = j.id then applyLease now (now + 30) x else x) := by
          rw [← hsnd, hres]
        have hrid : r.id = j.id := by rw [hrv]; rfl
        have hrrc : r.retry_count = j.retry_count := by rw [hrv]; rfl
        have hrmax : r.max_retries = j.max_retries := by rw [hrv]; rfl
        have hinv1 : StoreInv s1 := by
          rw [hs1]
          refine StoreInv_map s _ (fun x => ?_) hinv
          by_cases hx : x.id = j.id <;> simp [hx, applyLease]
        simp only [processNextJob, hres]
        cases b with
        | true =>
          rw [if_pos rfl]
          refine StoreInv_map s1 _ (fun x => ?_) hinv1
          by_cases hx : x.id = r.id <;> simp [updateJobStatus, hx]
        | false =>
          rw [if_neg Bool.false_ne_true]
          by_cases hterm : r.max_retries ≤ r.retry_count + 1
          · rw [if_pos hterm]
            refine StoreInv_map s1 _ (fun x => ?_) hinv1
            by_cases hx : x.id = r.id <;> simp [updateJobStatus, hx]
          · rw [if_neg hterm]
            have hlt : r.retry_count + 1 < r.max_retries := not_le.mp hterm
            rw [hs1, updateJobForRetry, List.map_map]
            intro y hy
            obtain ⟨x, hx, rfl⟩ := List.mem_map.mp hy
            by_cases hxid : x.id = j.id
            · have hxj : x = j :=
                List.inj_on_of_nodup_map hnodup hx hjs hxid
              have hc : (applyLease now (now + 30) x).id = r.id := by
                simp [applyLease, hxid, hrid]
              simp only [Function.comp_apply, if_pos hxid, if_pos hc]
              simp only [applyLease]
              simp only [hxj]
              omega
            · have hc2 : ¬ ((x : Job).id = r.id) := by
                rw [hrid]; exact hxid
              simp only [Function.comp_apply, if_neg hxid, if_neg hc2]
              exact hinv x hx

/-- Witness for the amended C7: a default submission and a failing worker
pass over a singleton store, both keeping the invariant. -/
theorem retry_invariant_preserved_witness :
    (jDef.retry_count = 0 ∧ jDef.retry_count ≤ jDef.max_retries ∧
      (StoreInv [] →
        StoreInv (submitJob [] (RateLimiter.new 10) reqDef 7).2.1)) ∧
    StoreInv (processNextJob [jW] 10 11 false) :=
  ⟨retry_invariant_preserved.1 [] (RateLimiter.new 10) reqDef 7 jDef
      (by decide) (by decide),
   retry_invariant_preserved.2 [jW] 10 11 false (by decide)
      (fun j hj => by rw [List.mem_singleton.mp hj]; decide)⟩

end TaskQueue
